import Mathlib

/-!
Verification of the service-removal transport-stream plugin
(`src/tsplugins/tsplugin_svremove.cpp`).

The plugin is shallowly embedded: its mutable fields become a `PluginState`
record, each table handler becomes a state-transformer function, the per-packet
routing decision becomes a pure function `route`, and the in-place descriptor
compaction loops become pure functions over byte lists.  External collaborators
(section demux, table codecs, cyclic packetizers, `std::map`, `std::bitset`)
are modelled by the contracts the plugin relies on: maps are association lists
in map order, PID sets are `Finset Nat`, packetizer queues are lists of queued
tables, and the demux delivers a decoded table only for a registered PID.
-/

namespace SVRemove

/-! Constants from the source (`tsduck` predefined PIDs and descriptor tags). -/

def PID_PAT : Nat := 0x0000
def PID_CAT : Nat := 0x0001
def PID_TSDT : Nat := 0x0002
def PID_NIT : Nat := 0x0010
def PID_SDT : Nat := 0x0011
def PID_BAT : Nat := 0x0011
def PID_EIT : Nat := 0x0012
def PID_RST : Nat := 0x0013
def PID_TDT : Nat := 0x0014
def PID_NETSYNC : Nat := 0x0015
def PID_RNT : Nat := 0x0016
def PID_INBSIGN : Nat := 0x001C
def PID_MEASURE : Nat := 0x001D
def PID_DIT : Nat := 0x001E
def PID_SIT : Nat := 0x001F
def PID_NULL : Nat := 0x1FFF

def DID_CA : Nat := 0x09
def DID_SERVICE_LIST : Nat := 0x41
def DID_LOGICAL_CHANNEL_NUM : Nat := 0x83
def PDS_EICTA : Nat := 0x28

/-- Big-endian 16-bit read of two bytes (`GetUInt16`). -/
def getUInt16 (b0 b1 : Nat) : Nat := b0 * 256 + b1

/-! Descriptor compaction (`processNITBATDescriptorList`, lines 497-545).

The C++ loops scan the payload from the front in fixed strides (3 bytes for
service-list records, 4 bytes for EICTA logical-channel records) while at
least one full record remains, copy forward every record whose leading 16-bit
service id differs from the target id, and finally `resizePayload` to the
number of bytes copied forward.  Bytes of a trailing group shorter than one
record are never read, and since the payload is resized to `new_data - base`
(a multiple of the stride) they are truncated away from the output. -/

/-- Service-list compaction loop (`while (size >= 3) ...` followed by
`resizePayload (new_data - base)`): keep each 3-byte record whose leading
16-bit service id is not `id`; any trailing group of fewer than 3 bytes is
not scanned and is cut off by the final resize. -/
def svlCompact (id : Nat) : List Nat → List Nat
  | b0 :: b1 :: b2 :: rest =>
      if getUInt16 b0 b1 ≠ id then b0 :: b1 :: b2 :: svlCompact id rest
      else svlCompact id rest
  | _ => []

/-- Logical-channel-number compaction loop (`while (size >= 4) ...`),
same scheme with 4-byte records. -/
def lcnCompact (id : Nat) : List Nat → List Nat
  | b0 :: b1 :: b2 :: b3 :: rest =>
      if getUInt16 b0 b1 ≠ id then b0 :: b1 :: b2 :: b3 :: lcnCompact id rest
      else lcnCompact id rest
  | _ => []

/-- Split of a payload into its complete 3-byte records, in order, dropping
any trailing group of fewer than 3 bytes. -/
def chunks3 : List Nat → List (List Nat)
  | b0 :: b1 :: b2 :: rest => [b0, b1, b2] :: chunks3 rest
  | _ => []

/-- Split of a payload into its complete 4-byte records, in order, dropping
any trailing group of fewer than 4 bytes. -/
def chunks4 : List Nat → List (List Nat)
  | b0 :: b1 :: b2 :: b3 :: rest => [b0, b1, b2, b3] :: chunks4 rest
  | _ => []

/-- Leading 16-bit service id of a record. -/
def recId : List Nat → Nat
  | b0 :: b1 :: _ => getUInt16 b0 b1
  | _ => 0

/-! Table data model.

Modelled from the spec: the table codecs (PAT/PMT/SDT/NIT/BAT decode) are
external collaborators; only the fields the plugin reads are represented.
`std::map` iteration is in key order, so a map is an association list whose
order is its iteration order. -/

/-- A descriptor inside a descriptor list.  `pds` is the private data
specifier in effect at the descriptor's position (the `DescriptorList::search`
overload with a PDS argument only matches descriptors under that PDS; a PDS
argument of 0 means no PDS constraint). -/
structure Descriptor where
  tag : Nat
  pds : Nat
  payload : List Nat
deriving DecidableEq, Repr

/-- Decoded PAT: the NIT PID announcement and the service-id to PMT-PID map
(association list in map order). -/
structure PATt where
  nit_pid : Nat
  pmts : List (Nat × Nat)
deriving DecidableEq, Repr

/-- Decoded PMT: service id, PCR PID, program-level descriptor list, and the
component map (elementary PID to its descriptor list, in map order). -/
structure PMTt where
  service_id : Nat
  pcr_pid : Nat
  descs : List Descriptor
  streams : List (Nat × List Descriptor)
deriving DecidableEq, Repr

/-- Decoded SDT (Actual): transport-stream id and the service map
(service id to rendered service name, in map order).  Name matching
(case-insensitive, blanks ignored) is external; names are stored already
normalized so matching is plain equality. -/
structure SDTt where
  ts_id : Nat
  services : List (Nat × String)
deriving DecidableEq, Repr

/-- Decoded NIT or BAT (`AbstractTransportListTable`): table-id extension
(network id or bouquet id), global descriptor list, and the per-transport
descriptor lists (in map order). -/
structure TLT where
  ext : Nat
  descs : List Descriptor
  transports : List (Nat × List Descriptor)
deriving DecidableEq, Repr

/-- Packet status returned by `processPacket`. -/
inductive Status where
  | TSP_OK
  | TSP_NULL
  | TSP_DROP
  | TSP_END
deriving DecidableEq, Repr

/-- An item queued in the SDT/BAT packetizer: an edited SDT-Actual keyed by
transport-stream id, a raw pass-through SDT-Other keyed by its extension, an
edited BAT keyed by bouquet id, or a raw pass-through BAT. -/
inductive SBItem where
  | sdtAct (ts : Nat) (t : SDTt)
  | sdtOth (ext : Nat)
  | batTbl (bid : Nat) (t : TLT)
  | batRaw (ext : Nat)
deriving DecidableEq, Repr

/-- An item queued in the NIT packetizer: an edited NIT-Actual keyed by
network id, a raw pass-through NIT-Actual, or a raw NIT-Other. -/
inductive NitItem where
  | nitAct (nid : Nat) (t : TLT)
  | nitActRaw (ext : Nat)
  | nitOth (ext : Nat)
deriving DecidableEq, Repr

/-- Match predicate of `CyclingPacketizer::removeSections (TID_SDT_ACT, ts)`. -/
def sbIsSdtAct (ts : Nat) : SBItem → Bool
  | .sdtAct t _ => t = ts
  | _ => false

/-- Match predicate of `removeSections (TID_SDT_OTH, ext)`. -/
def sbIsSdtOth (ext : Nat) : SBItem → Bool
  | .sdtOth e => e = ext
  | _ => false

/-- Match predicate of `removeSections (TID_BAT, ext)` (matches BAT sections
whether they were queued edited or raw). -/
def sbIsBat (ext : Nat) : SBItem → Bool
  | .batTbl b _ => b = ext
  | .batRaw b => b = ext
  | _ => false

/-- Match predicate of `removeSections (TID_NIT_ACT, ext)`. -/
def nitIsAct (ext : Nat) : NitItem → Bool
  | .nitAct n _ => n = ext
  | .nitActRaw e => e = ext
  | _ => false

/-- Match predicate of `removeSections (TID_NIT_OTH, ext)`. -/
def nitIsOth (ext : Nat) : NitItem → Bool
  | .nitOth e => e = ext
  | _ => false

/-! Plugin state (the instance fields of `SVRemovePlugin`). -/

/-- The mutable fields of the plugin.  The two cyclic packetizers on fixed
PIDs (`_pzer_pat` on `PID_PAT`, `_pzer_sdt_bat` on `PID_SDT`) keep their
construction PID forever, so only the NIT packetizer's PID (`setPID` in
`processPAT`) is state.  `resets` is the log of `_demux.resetPID` calls
(resetting reassembly state does not unregister the PID). -/
structure PluginState where
  abort : Bool
  ready : Bool
  transparent : Bool
  serviceId : Option Nat
  serviceName : String
  servicePmtPid : Option Nat
  ignoreAbsent : Bool
  ignoreBat : Bool
  ignoreNit : Bool
  dropStatus : Status
  dropPids : Finset Nat
  refPids : Finset Nat
  demuxPids : Finset Nat
  resets : List Nat
  pzerNitPid : Nat
  patQueue : List PATt
  sdtBatQueue : List SBItem
  nitQueue : List NitItem
deriving DecidableEq

/-- How the service was selected on the command line: numeric id, or a name
to be resolved against the SDT. -/
inductive TargetSel where
  | byId (id : Nat)
  | byName (name : String)
deriving DecidableEq, Repr

/-- Option values collected by `start()`. -/
structure Config where
  target : TargetSel
  ignoreAbsent : Bool
  ignoreBat : Bool
  ignoreNit : Bool
  stuffing : Bool
deriving DecidableEq, Repr

/-- Predefined PIDs seeded into `_ref_pids` by `start()` (lines 177-192). -/
def systemPids : Finset Nat :=
  {PID_PAT, PID_CAT, PID_TSDT, PID_NULL, PID_NIT, PID_SDT, PID_EIT, PID_RST,
   PID_TDT, PID_NETSYNC, PID_RNT, PID_INBSIGN, PID_MEASURE, PID_DIT, PID_SIT}

/-- State built by `start()` (lines 150-204): read options, register the SDT
PID (plus the PAT PID and, unless NIT editing is suppressed, the NIT PID when
the service id is already known), seed `_ref_pids` with the predefined PIDs,
clear all other state. -/
def startState (c : Config) : PluginState :=
  let sid : Option Nat := match c.target with
    | .byId i => some i
    | .byName _ => none
  let nm : String := match c.target with
    | .byId _ => ""
    | .byName n => n
  { abort := false
    ready := false
    transparent := false
    serviceId := sid
    serviceName := nm
    servicePmtPid := none
    ignoreAbsent := c.ignoreAbsent
    ignoreBat := c.ignoreBat
    ignoreNit := c.ignoreNit
    dropStatus := if c.stuffing then .TSP_NULL else .TSP_DROP
    dropPids := ∅
    refPids := systemPids
    demuxPids :=
      if sid.isSome then
        if c.ignoreNit then {PID_SDT, PID_PAT} else {PID_SDT, PID_PAT, PID_NIT}
      else {PID_SDT}
    resets := []
    pzerNitPid := PID_NIT
    patQueue := []
    sdtBatQueue := []
    nitQueue := [] }

/-! CA descriptor and `addECMPID` (lines 461-474). -/

/-- Modelled from the spec: `CADescriptor` (external codec) deserializes a CA
descriptor payload `(ca_system_id:16, reserved:3, ca_pid:13, ...)`; it is
valid when at least 4 bytes are present, and the ECM PID is the 13 low bits
of the big-endian 16-bit word at offset 2.  Returns `none` for an invalid
descriptor (which `addECMPID` ignores). -/
def caPid : List Nat → Option Nat
  | _ :: _ :: b2 :: b3 :: _ => some (getUInt16 b2 b3 % 8192)
  | _ => none

/-- One iteration of the `addECMPID` loop: if the descriptor is a CA
descriptor that deserializes to a valid `CADescriptor`, add its ECM PID. -/
def ecmStep (acc : Finset Nat) (d : Descriptor) : Finset Nat :=
  if d.tag = DID_CA then
    match caPid d.payload with
    | some p => insert p acc
    | none => acc
  else acc

/-- ECM marking (`addECMPID`, lines 461-474): for every CA descriptor in the
list that deserializes to a valid `CADescriptor`, add its ECM PID to the given
PID set.  (`DescriptorList::search (DID_CA)` enumerates the descriptors with
tag `DID_CA` in list order.) -/
def addECMPID (dlist : List Descriptor) (pid_set : Finset Nat) : Finset Nat :=
  dlist.foldl ecmStep pid_set

/-! Handler `processPMT` (lines 430-454). -/

/-- One iteration of the elementary-stream loop of `processPMT`: mark the
component's PID and its component-level ECM PIDs. -/
def streamStep (acc : Finset Nat) (st : Nat × List Descriptor) : Finset Nat :=
  addECMPID st.2 (insert st.1 acc)

/-- PID discovery of `processPMT` applied to one PID set: program-level ECM
PIDs, then the PCR PID, then each elementary-stream PID with its
component-level ECM PIDs. -/
def pmtMark (pmt : PMTt) (pid_set : Finset Nat) : Finset Nat :=
  let s1 := addECMPID pmt.descs pid_set
  let s2 := insert pmt.pcr_pid s1
  pmt.streams.foldl streamStep s2

/-- Handler `processPMT`: if the PMT belongs to the service to remove, the
discovered PIDs go to `_drop_pids` and `_ready` becomes true (`_ready =
_ready || removed_service`); otherwise they go to `_ref_pids` and `_ready` is
unchanged.  PMT PIDs are registered in the demux only by `processPAT`, which
asserts the id is known, so `serviceId = none` is treated as "not the removed
service". -/
def processPMT (s : PluginState) (pmt : PMTt) : PluginState :=
  let removed := s.serviceId = some pmt.service_id
  let s2 :=
    if removed then { s with dropPids := pmtMark pmt s.dropPids }
    else { s with refPids := pmtMark pmt s.refPids }
  { s2 with ready := s2.ready || removed }

/-! Handler `processPAT` (lines 374-423). -/

/-- Service loop of `processPAT` (lines 387-403): for each service to PMT-PID
entry, register the PMT PID in the demux; if the entry is the target service,
record its PMT PID and add it to `_drop_pids`, else add the PMT PID to
`_ref_pids`.  Returns the updated state and the `found` flag. -/
def patLoop (id : Nat) : List (Nat × Nat) → PluginState → PluginState × Bool
  | [], s => (s, false)
  | (sid, pp) :: rest, s =>
      let s1 := { s with demuxPids := insert pp s.demuxPids }
      if sid = id then
        let s2 := { s1 with servicePmtPid := some pp,
                            dropPids := insert pp s1.dropPids }
        ((patLoop id rest s2).1, true)
      else
        patLoop id rest { s1 with refPids := insert pp s1.refPids }

/-- Handler `processPAT`: record the announced NIT PID (packetizer PID and
demux), run the service loop, then erase the target's entry when found, else
set `_ready` (when absence is tolerated or NIT/BAT still need editing) or
`_abort`; finally replace the queued PAT (`removeSections (TID_PAT)` then
`addTable`, so the queue holds exactly the new PAT). -/
def processPAT (id : Nat) (s : PluginState) (pat : PATt) : PluginState :=
  let s1 := { s with pzerNitPid := pat.nit_pid,
                     demuxPids := insert pat.nit_pid s.demuxPids }
  let lf := patLoop id pat.pmts s1
  let s2 := lf.1
  let found := lf.2
  let pat2 := if found then { pat with pmts := pat.pmts.filter (fun e => e.1 ≠ id) }
              else pat
  let s3 :=
    if found then s2
    else if s2.ignoreAbsent || !s2.ignoreNit || !s2.ignoreBat then
      { s2 with ready := true }
    else
      { s2 with abort := true }
  { s3 with patQueue := [pat2] }

/-! Handler `processSDT` (lines 323-367). -/

/-- Name lookup `SDT::findService` (external codec, modelled from the spec):
scan the service map in map order for the first entry whose rendered name
matches the target name (matching is equality of normalized names) and return
its id. -/
def findName (name : String) (sdt : SDTt) : Option Nat :=
  (sdt.services.find? (fun e => e.2 = name)).map (fun e => e.1)

/-- Republication of an edited SDT-Actual: `removeSections (TID_SDT_ACT,
ts_id)` then `addTable`. -/
def enqueueSdt (s : PluginState) (sdt : SDTt) : PluginState :=
  { s with sdtBatQueue :=
      s.sdtBatQueue.filter (fun it => !(sbIsSdtAct sdt.ts_id it)) ++
        [.sdtAct sdt.ts_id sdt] }

/-- Handler `processSDT`: with a known id, look the service up by id (absence
is informational only); with an unknown id, look it up by name — on failure
set `_transparent` (when absence is tolerated) or `_abort` and return without
republishing; on success record the id and register the PAT (and NIT, unless
suppressed) in the demux.  When the id is known at this point, erase the
service's entry and republish the SDT. -/
def processSDT (s : PluginState) (sdt : SDTt) : PluginState :=
  match s.serviceId with
  | some id =>
      enqueueSdt s { sdt with services := sdt.services.filter (fun e => e.1 ≠ id) }
  | none =>
      match findName s.serviceName sdt with
      | none =>
          if s.ignoreAbsent then { s with transparent := true }
          else { s with abort := true }
      | some id =>
          let s1 := { s with
            serviceId := some id,
            demuxPids :=
              if s.ignoreNit then insert PID_PAT s.demuxPids
              else insert PID_NIT (insert PID_PAT s.demuxPids) }
          enqueueSdt s1 { sdt with services := sdt.services.filter (fun e => e.1 ≠ id) }

/-! Handler `processNITBAT` (lines 481-545). -/

/-- First loop of `processNITBATDescriptorList`: compact every service-list
descriptor (tag match only, no PDS constraint). -/
def editSvcList (id : Nat) (d : Descriptor) : Descriptor :=
  if d.tag = DID_SERVICE_LIST then { d with payload := svlCompact id d.payload }
  else d

/-- Second loop of `processNITBATDescriptorList`: compact every EICTA
logical-channel-number descriptor (tag and PDS must match). -/
def editLcn (id : Nat) (d : Descriptor) : Descriptor :=
  if d.tag = DID_LOGICAL_CHANNEL_NUM ∧ d.pds = PDS_EICTA then
    { d with payload := lcnCompact id d.payload }
  else d

/-- Editing of one descriptor list (`processNITBATDescriptorList`): the two
sequential compaction loops. -/
def processNITBATDescriptorList (id : Nat) (dlist : List Descriptor) :
    List Descriptor :=
  (dlist.map (editSvcList id)).map (editLcn id)

/-- Editing of a NIT or BAT (`processNITBAT`): edit the global descriptor
list and every per-transport descriptor list. -/
def processNITBAT (id : Nat) (t : TLT) : TLT :=
  { t with descs := processNITBATDescriptorList id t.descs,
           transports := t.transports.map
             (fun tr => (tr.1, processNITBATDescriptorList id tr.2)) }

/-- Reference edit of one descriptor, written from the spec's words for the
compaction step: the output payload of a service-list descriptor (3-byte
records) or EICTA logical-channel descriptor (4-byte records) is exactly the
subsequence, in original order, of the input records whose leading 16-bit
service id differs from the target id; other descriptors are untouched. -/
def specEdit (id : Nat) (d : Descriptor) : Descriptor :=
  if d.tag = DID_SERVICE_LIST then
    { d with payload := ((chunks3 d.payload).filter (fun r => recId r ≠ id)).flatten }
  else if d.tag = DID_LOGICAL_CHANNEL_NUM ∧ d.pds = PDS_EICTA then
    { d with payload := ((chunks4 d.payload).filter (fun r => recId r ≠ id)).flatten }
  else d

/-! Table dispatch `handleTable` (lines 211-316) and the demux contract. -/

/-- A complete table delivered by the section demux, carrying its source PID,
the decode validity flag of the typed table, and the decoded object.
Raw pass-through cases only need the table-id extension. -/
inductive Event where
  | pat (src : Nat) (valid : Bool) (t : PATt)
  | pmt (src : Nat) (valid : Bool) (t : PMTt)
  | sdtAct (src : Nat) (valid : Bool) (t : SDTt)
  | sdtOth (src : Nat) (ext : Nat)
  | bat (src : Nat) (valid : Bool) (t : TLT)
  | nitAct (src : Nat) (valid : Bool) (t : TLT)
  | nitOth (src : Nat) (ext : Nat)
deriving DecidableEq

/-- Source PID a table was found on. -/
def Event.src : Event → Nat
  | .pat s _ _ => s
  | .pmt s _ _ => s
  | .sdtAct s _ _ => s
  | .sdtOth s _ => s
  | .bat s _ _ => s
  | .nitAct s _ _ => s
  | .nitOth s _ => s

/-- Table dispatch (`handleTable`).  A PAT is only accepted from the PAT PID,
an SDT/BAT from the SDT PID, a NIT from the NIT PID; a PMT is accepted from
any PID.  A BAT arriving while the service id is still unknown resets the
demux on its source PID (logged in `resets`) so the table is redelivered
later.  `processPAT` asserts the id is known (the PAT PID is only registered
once it is), so the impossible unknown-id case leaves the state unchanged;
likewise a NIT can only be delivered once the id is known. -/
def handleTable (s : PluginState) : Event → PluginState
  | .pat src valid t =>
      if src = PID_PAT then
        if valid then
          match s.serviceId with
          | some id => processPAT id s t
          | none => s
        else s
      else s
  | .pmt _ valid t => if valid then processPMT s t else s
  | .sdtAct src valid t =>
      if src = PID_SDT then
        if valid then processSDT s t else s
      else s
  | .sdtOth src ext =>
      if src = PID_SDT then
        { s with sdtBatQueue :=
            s.sdtBatQueue.filter (fun it => !(sbIsSdtOth ext it)) ++ [.sdtOth ext] }
      else s
  | .bat src valid t =>
      if src = PID_BAT then
        if s.serviceId.isNone then
          { s with resets := s.resets ++ [src] }
        else if s.ignoreBat then
          { s with sdtBatQueue :=
              s.sdtBatQueue.filter (fun it => !(sbIsBat t.ext it)) ++ [.batRaw t.ext] }
        else if valid then
          let b := processNITBAT (s.serviceId.getD 0) t
          { s with sdtBatQueue :=
              s.sdtBatQueue.filter (fun it => !(sbIsBat b.ext it)) ++ [.batTbl b.ext b] }
        else s
      else s
  | .nitAct src valid t =>
      if src = PID_NIT then
        if s.ignoreNit then
          { s with nitQueue :=
              s.nitQueue.filter (fun it => !(nitIsAct t.ext it)) ++ [.nitActRaw t.ext] }
        else if valid then
          match s.serviceId with
          | some id =>
              let n := processNITBAT id t
              { s with nitQueue :=
                  s.nitQueue.filter (fun it => !(nitIsAct n.ext it)) ++ [.nitAct n.ext n] }
          | none => s
        else s
      else s
  | .nitOth src ext =>
      if src = PID_NIT then
        { s with nitQueue :=
            s.nitQueue.filter (fun it => !(nitIsOth ext it)) ++ [.nitOth ext] }
      else s

/-- Demux delivery contract: a complete table is delivered (and `handleTable`
invoked) only for a PID currently registered in the demux. -/
def applyEvent (s : PluginState) (e : Event) : PluginState :=
  if e.src ∈ s.demuxPids then handleTable s e else s

/-- A run: the table deliveries triggered while feeding packets, in arrival
order, applied from a starting state. -/
def runEvents (s : PluginState) (evs : List Event) : PluginState :=
  evs.foldl applyEvent s

/-- Invariant used for deferral: while the service id is unknown, the only
registered demux PID is the SDT/BAT PID, so no NIT (and no PAT) can be
delivered. -/
def NitSafe (s : PluginState) : Prop :=
  s.serviceId = none → s.demuxPids ⊆ {PID_SDT}

/-! Packet router `processPacket` (lines 552-591). -/

/-- Fate of one packet as decided by `processPacket`. -/
inductive RouteOutcome where
  | passTransparent
  | terminated
  | dropped (st : Status)
  | replacedPat
  | replacedSdtBat
  | replacedNit
  | passed
deriving DecidableEq, Repr

/-- Routing decision of `processPacket`.  `trans0` is `_transparent` as read
at entry (before the packet is fed to the demux, which may change the flags
synchronously); `s` is the plugin state after the demux feed, whose handlers
may have set `_abort`, `_ready`, etc.  The two fixed packetizers answer
`getPID () = PID_PAT` and `PID_SDT`; the NIT packetizer's PID is state. -/
def route (trans0 : Bool) (s : PluginState) (pid : Nat) : RouteOutcome :=
  if trans0 then .passTransparent
  else if s.abort then .terminated
  else if !s.ready then .dropped s.dropStatus
  else if pid ∈ s.dropPids ∧ pid ∉ s.refPids then .dropped s.dropStatus
  else if pid = PID_PAT then .replacedPat
  else if pid = PID_SDT then .replacedSdtBat
  else if !s.ignoreNit ∧ pid = s.pzerNitPid then .replacedNit
  else .passed

/-! Concrete fixtures used by the witness theorems. -/

/-- Numeric target 0x20, all options off. -/
def cfgNum : Config :=
  { target := .byId 0x20, ignoreAbsent := false, ignoreBat := false,
    ignoreNit := false, stuffing := false }

/-- Target by name, all options off. -/
def cfgName : Config :=
  { target := .byName "Channel 5", ignoreAbsent := false, ignoreBat := false,
    ignoreNit := false, stuffing := false }

/-- Target by name with absence tolerated. -/
def cfgNameIgnore : Config :=
  { target := .byName "Channel 5", ignoreAbsent := true, ignoreBat := false,
    ignoreNit := false, stuffing := false }

/-- Numeric target with absence fatal and NIT/BAT editing suppressed. -/
def cfgStrict : Config :=
  { target := .byId 0x20, ignoreAbsent := false, ignoreBat := true,
    ignoreNit := true, stuffing := false }

/-- A PAT listing the target service 0x20 and one other service. -/
def patW : PATt := { nit_pid := 0x10, pmts := [(0x20, 0x100), (0x21, 0x200)] }

/-- A PAT without the target service 0x20. -/
def patAbsent : PATt := { nit_pid := 0x10, pmts := [(0x21, 0x200)] }

/-- A PMT of service 0x20 with a program-level CA descriptor and two
components, one carrying a component-level CA descriptor. -/
def pmtW : PMTt :=
  { service_id := 0x20, pcr_pid := 0x101,
    descs := [⟨DID_CA, 0, [0, 1, 0x10, 0x02]⟩],
    streams := [(0x101, []), (0x102, [⟨DID_CA, 0, [0, 1, 0x11, 0x03]⟩])] }

/-- An SDT-Actual naming services 0x30 and 0x31. -/
def sdtW : SDTt := { ts_id := 1, services := [(0x30, "Channel 5"), (0x31, "News")] }

/-- An SDT-Actual that does not contain the name "Channel 5" nor id 0x20. -/
def sdtAbsent : SDTt := { ts_id := 1, services := [(0x31, "News")] }

/-- A BAT with a service-list descriptor and an EICTA logical-channel
descriptor mentioning services 0x30 and 0x31. -/
def batW : TLT :=
  { ext := 7,
    descs := [⟨DID_SERVICE_LIST, 0, [0, 0x30, 1, 0, 0x31, 1]⟩],
    transports := [(1, [⟨DID_LOGICAL_CHANNEL_NUM, PDS_EICTA,
                         [0, 0x30, 0, 5, 0, 0x31, 0, 6]⟩])] }

/-- A post-feed state with readiness reached and PID 5 in both sets. -/
def sBoth : PluginState :=
  { startState cfgNum with ready := true, dropPids := {5}, refPids := {5} }

/-- A state with the id resolved to 0x30 (as after processing `sdtW`). -/
def sKnown : PluginState := processSDT (startState cfgName) sdtW

/-! Helper lemmas: descriptor compaction. -/

theorem svlCompact_eq_filter (id : Nat) (p : List Nat) :
    svlCompact id p = ((chunks3 p).filter (fun r => recId r ≠ id)).flatten := by
  induction p using svlCompact.induct id with
  | case1 b0 b1 b2 rest hne ih =>
      simp [svlCompact, chunks3, hne, recId, List.filter, ih]
  | case2 b0 b1 b2 rest hne ih =>
      simp at hne
      simp [svlCompact, chunks3, recId, hne, List.filter, ih]
  | case3 p h1 =>
      cases p with
      | nil => simp [svlCompact, chunks3]
      | cons a t =>
        cases t with
        | nil => simp [svlCompact, chunks3]
        | cons b t2 =>
          cases t2 with
          | nil => simp [svlCompact, chunks3]
          | cons c t3 => exact absurd rfl (h1 a b c t3)

theorem lcnCompact_eq_filter (id : Nat) (p : List Nat) :
    lcnCompact id p = ((chunks4 p).filter (fun r => recId r ≠ id)).flatten := by
  induction p using lcnCompact.induct id with
  | case1 b0 b1 b2 b3 rest hne ih =>
      simp [lcnCompact, chunks4, hne, recId, List.filter, ih]
  | case2 b0 b1 b2 b3 rest hne ih =>
      simp at hne
      simp [lcnCompact, chunks4, recId, hne, List.filter, ih]
  | case3 p h1 =>
      cases p with
      | nil => simp [lcnCompact, chunks4]
      | cons a t =>
        cases t with
        | nil => simp [lcnCompact, chunks4]
        | cons b t2 =>
          cases t2 with
          | nil => simp [lcnCompact, chunks4]
          | cons c t3 =>
            cases t3 with
            | nil => simp [lcnCompact, chunks4]
            | cons d t4 => exact absurd rfl (h1 a b c d t4)

theorem svlCompact_length_mod (id : Nat) (p : List Nat) :
    (svlCompact id p).length % 3 = 0 := by
  induction p using svlCompact.induct id with
  | case1 b0 b1 b2 rest hne ih =>
      simp only [svlCompact, if_pos hne, List.length_cons]
      omega
  | case2 b0 b1 b2 rest hne ih =>
      simp at hne
      simpa [svlCompact, hne] using ih
  | case3 p h1 =>
      cases p with
      | nil => simp [svlCompact]
      | cons a t =>
        cases t with
        | nil => simp [svlCompact]
        | cons b t2 =>
          cases t2 with
          | nil => simp [svlCompact]
          | cons c t3 => exact absurd rfl (h1 a b c t3)

theorem lcnCompact_length_mod (id : Nat) (p : List Nat) :
    (lcnCompact id p).length % 4 = 0 := by
  induction p using lcnCompact.induct id with
  | case1 b0 b1 b2 b3 rest hne ih =>
      simp only [lcnCompact, if_pos hne, List.length_cons]
      omega
  | case2 b0 b1 b2 b3 rest hne ih =>
      simp at hne
      simpa [lcnCompact, hne] using ih
  | case3 p h1 =>
      cases p with
      | nil => simp [lcnCompact]
      | cons a t =>
        cases t with
        | nil => simp [lcnCompact]
        | cons b t2 =>
          cases t2 with
          | nil => simp [lcnCompact]
          | cons c t3 =>
            cases t3 with
            | nil => simp [lcnCompact]
            | cons d t4 => exact absurd rfl (h1 a b c d t4)

theorem editSvcList_editLcn_eq_specEdit (id : Nat) (d : Descriptor) :
    editLcn id (editSvcList id d) = specEdit id d := by
  by_cases h1 : d.tag = DID_SERVICE_LIST
  · have h2 : ¬(d.tag = DID_LOGICAL_CHANNEL_NUM ∧ d.pds = PDS_EICTA) := by
      intro h
      rw [h1] at h
      exact absurd h.1 (by decide)
    simp [editSvcList, editLcn, specEdit, h1, h2, svlCompact_eq_filter,
      DID_SERVICE_LIST, DID_LOGICAL_CHANNEL_NUM]
  · by_cases h2 : d.tag = DID_LOGICAL_CHANNEL_NUM ∧ d.pds = PDS_EICTA
    · simp [editSvcList, editLcn, specEdit, h1, h2, h2.1, h2.2,
        lcnCompact_eq_filter, DID_SERVICE_LIST, DID_LOGICAL_CHANNEL_NUM,
        PDS_EICTA]
    · simp [editSvcList, editLcn, specEdit, h1, h2]

theorem processNITBATDescriptorList_eq_map_specEdit (id : Nat)
    (dlist : List Descriptor) :
    processNITBATDescriptorList id dlist = dlist.map (specEdit id) := by
  unfold processNITBATDescriptorList
  rw [List.map_map]
  exact List.map_congr_left (fun d _ => editSvcList_editLcn_eq_specEdit id d)

theorem specEdit_tag (id : Nat) (d : Descriptor) : (specEdit id d).tag = d.tag := by
  unfold specEdit
  split <;> try rfl
  split <;> rfl

theorem specEdit_pds (id : Nat) (d : Descriptor) : (specEdit id d).pds = d.pds := by
  unfold specEdit
  split <;> try rfl
  split <;> rfl

theorem specEdit_payload_svl (id : Nat) (d : Descriptor)
    (h : d.tag = DID_SERVICE_LIST) :
    (specEdit id d).payload =
      ((chunks3 d.payload).filter (fun r => recId r ≠ id)).flatten := by
  unfold specEdit
  simp [h]

theorem specEdit_payload_lcn (id : Nat) (d : Descriptor)
    (h1 : d.tag = DID_LOGICAL_CHANNEL_NUM) (h2 : d.pds = PDS_EICTA) :
    (specEdit id d).payload =
      ((chunks4 d.payload).filter (fun r => recId r ≠ id)).flatten := by
  have h3 : ¬ d.tag = DID_SERVICE_LIST := by rw [h1]; decide
  simp [specEdit, h1, h2, h3, DID_SERVICE_LIST, DID_LOGICAL_CHANNEL_NUM]

theorem flatten_filter_length_mod3 (rs : List (List Nat)) (q : List Nat → Bool)
    (hlen : ∀ r ∈ rs, r.length = 3) :
    ((rs.filter q).flatten).length % 3 = 0 := by
  induction rs with
  | nil => simp
  | cons r rest ih =>
      have hr : r.length = 3 := hlen r (by simp)
      have hrest : ∀ x ∈ rest, x.length = 3 := fun x hx => hlen x (by simp [hx])
      have hih := ih hrest
      by_cases hq : q r
      · simp only [List.filter_cons, hq, if_pos, List.flatten_cons,
          List.length_append, hr]
        omega
      · simpa [List.filter_cons, hq] using hih


theorem svlCompact_short (id : Nat) (l : List Nat) (h : l.length < 3) :
    svlCompact id l = [] := by
  cases l with
  | nil => rfl
  | cons a t =>
    cases t with
    | nil => rfl
    | cons b t2 =>
      cases t2 with
      | nil => rfl
      | cons c t3 => simp at h; omega

theorem lcnCompact_short (id : Nat) (l : List Nat) (h : l.length < 4) :
    lcnCompact id l = [] := by
  cases l with
  | nil => rfl
  | cons a t =>
    cases t with
    | nil => rfl
    | cons b t2 =>
      cases t2 with
      | nil => rfl
      | cons c t3 =>
        cases t3 with
        | nil => rfl
        | cons d t4 => simp at h; omega

theorem svlCompact_append_full (id : Nat) (extra : List Nat)
    (hex : extra.length < 3) :
    ∀ full : List Nat, full.length % 3 = 0 →
      svlCompact id (full ++ extra) = svlCompact id full := by
  intro full
  induction full using chunks3.induct with
  | case1 b0 b1 b2 rest ih =>
      intro hlen
      have hr : rest.length % 3 = 0 := by simp at hlen; omega
      simp only [List.cons_append, svlCompact, List.append_eq]
      rw [ih hr]
  | case2 p h1 =>
      intro hlen
      cases p with
      | nil => simpa using svlCompact_short id extra hex
      | cons a t =>
        cases t with
        | nil => simp at hlen
        | cons b t2 =>
          cases t2 with
          | nil => simp at hlen
          | cons c t3 => exact absurd rfl (h1 a b c t3)

theorem lcnCompact_append_full (id : Nat) (extra : List Nat)
    (hex : extra.length < 4) :
    ∀ full : List Nat, full.length % 4 = 0 →
      lcnCompact id (full ++ extra) = lcnCompact id full := by
  intro full
  induction full using chunks4.induct with
  | case1 b0 b1 b2 b3 rest ih =>
      intro hlen
      have hr : rest.length % 4 = 0 := by simp at hlen; omega
      simp only [List.cons_append, lcnCompact, List.append_eq]
      rw [ih hr]
  | case2 p h1 =>
      intro hlen
      cases p with
      | nil => simpa using lcnCompact_short id extra hex
      | cons a t =>
        cases t with
        | nil => simp at hlen
        | cons b t2 =>
          cases t2 with
          | nil => simp at hlen
          | cons c t3 =>
            cases t3 with
            | nil => simp at hlen
            | cons d t4 => exact absurd rfl (h1 a b c d t4)

/-! Claim C5 and its witness. -/

/-- C5: for every service-list descriptor payload (3-byte records) and every
EICTA logical-channel-number descriptor payload (4-byte records) in a
NIT/BAT's global or per-transport descriptor list, the compaction step
produces exactly the subsequence, in original order, of the input records
whose leading 16-bit service id differs from the target's id (the reference
edit `specEdit`), and the resulting payload length is a multiple of the
record size. -/
theorem nitbat_compaction_subsequence (id : Nat) (dlist : List Descriptor)
    (t : TLT) :
    processNITBATDescriptorList id dlist = dlist.map (specEdit id)
    ∧ (∀ d ∈ processNITBATDescriptorList id dlist,
        (d.tag = DID_SERVICE_LIST → d.payload.length % 3 = 0)
        ∧ (d.tag = DID_LOGICAL_CHANNEL_NUM ∧ d.pds = PDS_EICTA →
            d.payload.length % 4 = 0))
    ∧ (processNITBAT id t).descs = t.descs.map (specEdit id)
    ∧ (processNITBAT id t).transports
        = t.transports.map (fun tr => (tr.1, tr.2.map (specEdit id))) := by
  refine ⟨processNITBATDescriptorList_eq_map_specEdit id dlist, ?_, ?_, ?_⟩
  · intro d hd
    rw [processNITBATDescriptorList_eq_map_specEdit] at hd
    rcases List.mem_map.mp hd with ⟨d0, _, rfl⟩
    constructor
    · intro htag
      rw [specEdit_tag] at htag
      rw [specEdit_payload_svl id d0 htag, ← svlCompact_eq_filter]
      exact svlCompact_length_mod id d0.payload
    · rintro ⟨htag, hpds⟩
      rw [specEdit_tag] at htag
      rw [specEdit_pds] at hpds
      rw [specEdit_payload_lcn id d0 htag hpds, ← lcnCompact_eq_filter]
      exact lcnCompact_length_mod id d0.payload
  · exact processNITBATDescriptorList_eq_map_specEdit id t.descs
  · unfold processNITBAT
    simp only
    exact List.map_congr_left
      (fun tr _ => by rw [processNITBATDescriptorList_eq_map_specEdit])

/-- Witness for C5 at a concrete BAT: the edited service-list descriptor of
`batW` for target 0x30 keeps only the 0x31 record, a 3-byte payload. -/
theorem nitbat_compaction_subsequence_witness :
    processNITBATDescriptorList 0x30 batW.descs = batW.descs.map (specEdit 0x30)
    ∧ (⟨DID_SERVICE_LIST, 0, [0, 0x31, 1]⟩ : Descriptor).payload.length % 3 = 0 :=
  ⟨(nitbat_compaction_subsequence 0x30 batW.descs batW).1,
   ((nitbat_compaction_subsequence 0x30 batW.descs batW).2.1
      ⟨DID_SERVICE_LIST, 0, [0, 0x31, 1]⟩ (by decide)).1 (by decide)⟩

/-! Claim C6: counterexample and amended statement. -/

/-- C6 is false as stated: on the malformed payload `[0, 1, 2, 9, 9]` with
target id 5, the compaction returns `[0, 1, 2]` — the trailing partial record
`[9, 9]` is not left in the output; `resizePayload (new_data - base)`
truncates it away (no byte 9 remains in the output). -/
theorem compaction_drops_partial_cex :
    svlCompact 5 [0, 1, 2, 9, 9] = [0, 1, 2]
    ∧ svlCompact 5 [0, 1, 2, 9, 9] ≠ [0, 1, 2, 9, 9]
    ∧ 9 ∉ svlCompact 5 [0, 1, 2, 9, 9] := by decide

/-- C6 (amended): for every descriptor payload whose length is not an exact
multiple of the record size, the compaction never reads the trailing partial
record as part of the scan — the result is the same as on the complete
records alone — and the partial record is removed from the output by the
final payload truncation, so the output length is a multiple of the record
size. -/
theorem compaction_ignores_trailing (id : Nat) (full extra : List Nat) :
    (full.length % 3 = 0 → extra.length < 3 →
      svlCompact id (full ++ extra) = svlCompact id full)
    ∧ (full.length % 4 = 0 → extra.length < 4 →
      lcnCompact id (full ++ extra) = lcnCompact id full)
    ∧ (svlCompact id (full ++ extra)).length % 3 = 0
    ∧ (lcnCompact id (full ++ extra)).length % 4 = 0 :=
  ⟨fun hf hx => svlCompact_append_full id extra hx full hf,
   fun hf hx => lcnCompact_append_full id extra hx full hf,
   svlCompact_length_mod id (full ++ extra),
   lcnCompact_length_mod id (full ++ extra)⟩

/-- Witness for the amended C6 at the counterexample's input. -/
theorem compaction_ignores_trailing_witness :
    svlCompact 5 ([0, 1, 2] ++ [9, 9]) = svlCompact 5 [0, 1, 2] :=
  (compaction_ignores_trailing 5 [0, 1, 2] [9, 9]).1 (by decide) (by decide)

/-! Claim C3 and its witness. -/

/-- C3: for every incoming packet the router produces exactly one outcome
(`route` is a function), chosen in this fixed priority: transparent mode (as
read at entry) passes the packet; otherwise, on the state after the demux
feed, abort terminates the stream; otherwise before readiness every packet —
regardless of its PID — receives the configured drop behavior; otherwise a
drop-classified PID gets the drop behavior; otherwise the PAT, SDT/BAT, or
(when NIT editing is not suppressed) NIT packetizer PID is replaced by that
packetizer's next packet; otherwise the packet passes unchanged. -/
theorem processPacket_priority (trans0 : Bool) (s : PluginState) (pid : Nat) :
    (trans0 = true → route trans0 s pid = .passTransparent)
    ∧ (trans0 = false → s.abort = true → route trans0 s pid = .terminated)
    ∧ (trans0 = false → s.abort = false → s.ready = false →
        ∀ q : Nat, route trans0 s q = .dropped s.dropStatus)
    ∧ (trans0 = false → s.abort = false → s.ready = true →
        pid ∈ s.dropPids → pid ∉ s.refPids →
        route trans0 s pid = .dropped s.dropStatus)
    ∧ (trans0 = false → s.abort = false → s.ready = true →
        ¬(pid ∈ s.dropPids ∧ pid ∉ s.refPids) → pid = PID_PAT →
        route trans0 s pid = .replacedPat)
    ∧ (trans0 = false → s.abort = false → s.ready = true →
        ¬(pid ∈ s.dropPids ∧ pid ∉ s.refPids) → pid ≠ PID_PAT → pid = PID_SDT →
        route trans0 s pid = .replacedSdtBat)
    ∧ (trans0 = false → s.abort = false → s.ready = true →
        ¬(pid ∈ s.dropPids ∧ pid ∉ s.refPids) → pid ≠ PID_PAT → pid ≠ PID_SDT →
        s.ignoreNit = false → pid = s.pzerNitPid →
        route trans0 s pid = .replacedNit)
    ∧ (trans0 = false → s.abort = false → s.ready = true →
        ¬(pid ∈ s.dropPids ∧ pid ∉ s.refPids) → pid ≠ PID_PAT → pid ≠ PID_SDT →
        ¬(s.ignoreNit = false ∧ pid = s.pzerNitPid) →
        route trans0 s pid = .passed) := by
  refine ⟨?_, ?_, ?_, ?_, ?_, ?_, ?_, ?_⟩ <;> intros <;> unfold route <;>
    split_ifs <;> first | rfl | simp_all

/-- Witness for C3: in the fresh numeric-target state (not yet ready) an
arbitrary packet receives the drop behavior. -/
theorem processPacket_priority_witness :
    route false (startState cfgNum) 0x123 = .dropped Status.TSP_DROP :=
  (processPacket_priority false (startState cfgNum) 0x123).2.2.1 rfl rfl rfl 0x123

/-! Claim C4 and its witness. -/

/-- C4: after readiness, a packet whose PID is in both `drop_pids` and
`ref_pids` is never given the drop behavior: membership in `ref_pids`
dominates membership in `drop_pids` at every routing decision. -/
theorem refPids_dominates (trans0 : Bool) (s : PluginState) (pid : Nat)
    (st : Status) :
    s.ready = true → pid ∈ s.dropPids → pid ∈ s.refPids →
    route trans0 s pid ≠ .dropped st := by
  intro hr hd hrf
  unfold route
  split_ifs with h1 h2 h3 h4 h5 h6 h7 <;> simp_all

/-- Witness for C4: in the ready state `sBoth`, PID 5 (in both sets) is not
dropped. -/
theorem refPids_dominates_witness :
    route false sBoth 5 ≠ .dropped Status.TSP_DROP :=
  refPids_dominates false sBoth 5 Status.TSP_DROP rfl (by decide) (by decide)

/-! Helper lemmas: the `processPAT` service loop. -/

theorem patLoop_preserves (id : Nat) (l : List (Nat × Nat)) (s : PluginState) :
    ((patLoop id l s).1.abort = s.abort)
    ∧ ((patLoop id l s).1.ready = s.ready)
    ∧ ((patLoop id l s).1.transparent = s.transparent)
    ∧ ((patLoop id l s).1.serviceId = s.serviceId)
    ∧ ((patLoop id l s).1.serviceName = s.serviceName)
    ∧ ((patLoop id l s).1.ignoreAbsent = s.ignoreAbsent)
    ∧ ((patLoop id l s).1.ignoreBat = s.ignoreBat)
    ∧ ((patLoop id l s).1.ignoreNit = s.ignoreNit)
    ∧ ((patLoop id l s).1.dropStatus = s.dropStatus)
    ∧ ((patLoop id l s).1.resets = s.resets)
    ∧ ((patLoop id l s).1.pzerNitPid = s.pzerNitPid)
    ∧ ((patLoop id l s).1.patQueue = s.patQueue)
    ∧ ((patLoop id l s).1.sdtBatQueue = s.sdtBatQueue)
    ∧ ((patLoop id l s).1.nitQueue = s.nitQueue) := by
  induction l generalizing s with
  | nil => simp [patLoop]
  | cons e rest ih =>
      obtain ⟨sid, pp⟩ := e
      by_cases h : sid = id
      · simp only [patLoop, if_pos h]
        exact ih _
      · simp only [patLoop, if_neg h]
        exact ih _

theorem patLoop_drop_mono (id : Nat) (l : List (Nat × Nat)) (s : PluginState) :
    s.dropPids ⊆ (patLoop id l s).1.dropPids := by
  induction l generalizing s with
  | nil => simp [patLoop]
  | cons e rest ih =>
      obtain ⟨sid, pp⟩ := e
      by_cases h : sid = id
      · simp only [patLoop, if_pos h]
        exact fun x hx => ih _ (Finset.mem_insert_of_mem hx)
      · simp only [patLoop, if_neg h]
        exact ih { s with demuxPids := insert pp s.demuxPids,
                          refPids := insert pp s.refPids }

theorem patLoop_ref_mono (id : Nat) (l : List (Nat × Nat)) (s : PluginState) :
    s.refPids ⊆ (patLoop id l s).1.refPids := by
  induction l generalizing s with
  | nil => simp [patLoop]
  | cons e rest ih =>
      obtain ⟨sid, pp⟩ := e
      by_cases h : sid = id
      · simp only [patLoop, if_pos h]
        exact ih { s with demuxPids := insert pp s.demuxPids,
                          servicePmtPid := some pp,
                          dropPids := insert pp s.dropPids }
      · simp only [patLoop, if_neg h]
        exact fun x hx => ih _ (Finset.mem_insert_of_mem hx)

theorem patLoop_found (id : Nat) (l : List (Nat × Nat)) (s : PluginState) :
    (patLoop id l s).2 = true ↔ ∃ e ∈ l, e.1 = id := by
  induction l generalizing s with
  | nil => simp [patLoop]
  | cons e rest ih =>
      obtain ⟨sid, pp⟩ := e
      by_cases h : sid = id
      · simp [patLoop, if_pos h, h]
      · simp only [patLoop, if_neg h]
        rw [ih]
        constructor
        · rintro ⟨e, he, hp⟩
          exact ⟨e, List.mem_cons_of_mem _ he, hp⟩
        · rintro ⟨e, he, hp⟩
          rcases List.mem_cons.mp he with rfl | hmem
          · exact absurd hp h
          · exact ⟨e, hmem, hp⟩

theorem patLoop_mem_drop (id : Nat) (l : List (Nat × Nat)) (s : PluginState) :
    ∀ e ∈ l, e.1 = id → e.2 ∈ (patLoop id l s).1.dropPids := by
  induction l generalizing s with
  | nil => simp
  | cons e0 rest ih =>
      obtain ⟨sid, pp⟩ := e0
      intro e he hp
      rcases List.mem_cons.mp he with rfl | hmem
      · have h : sid = id := hp
        simp only [patLoop, if_pos h]
        exact patLoop_drop_mono id rest _ (Finset.mem_insert_self _ _)
      · by_cases h : sid = id
        · simp only [patLoop, if_pos h]
          exact ih _ e hmem hp
        · simp only [patLoop, if_neg h]
          exact ih _ e hmem hp

theorem patLoop_mem_ref (id : Nat) (l : List (Nat × Nat)) (s : PluginState) :
    ∀ e ∈ l, e.1 ≠ id → e.2 ∈ (patLoop id l s).1.refPids := by
  induction l generalizing s with
  | nil => simp
  | cons e0 rest ih =>
      obtain ⟨sid, pp⟩ := e0
      intro e he hp
      rcases List.mem_cons.mp he with rfl | hmem
      · have h : ¬ sid = id := hp
        simp only [patLoop, if_neg h]
        exact patLoop_ref_mono id rest _ (Finset.mem_insert_self _ _)
      · by_cases h : sid = id
        · simp only [patLoop, if_pos h]
          exact ih _ e hmem hp
        · simp only [patLoop, if_neg h]
          exact ih _ e hmem hp

theorem patLoop_drop_eq_of_absent (id : Nat) (l : List (Nat × Nat))
    (s : PluginState) (habs : ∀ e ∈ l, e.1 ≠ id) :
    (patLoop id l s).1.dropPids = s.dropPids := by
  induction l generalizing s with
  | nil => simp [patLoop]
  | cons e0 rest ih =>
      obtain ⟨sid, pp⟩ := e0
      have h : ¬ sid = id := habs (sid, pp) (by simp)
      simp only [patLoop, if_neg h]
      exact ih _ (fun e he => habs e (List.mem_cons_of_mem _ he))

/-! Claim C1 and its witness. -/

/-- C1: for every decoded PAT processed while the target service id is known,
if the target id appears in the PAT's service map then after `processPAT` the
republished PAT's service list is exactly the original list with the target's
entry removed (all other mappings unchanged and in original order), the
target's PMT PID is in `drop_pids`, and every other service's PMT PID is in
`ref_pids`. -/
theorem processPAT_removes_target (id : Nat) (s : PluginState) (pat : PATt)
    (hfound : ∃ e ∈ pat.pmts, e.1 = id) :
    (processPAT id s pat).patQueue
        = [{ pat with pmts := pat.pmts.filter (fun e => e.1 ≠ id) }]
    ∧ (∀ e ∈ pat.pmts, e.1 = id → e.2 ∈ (processPAT id s pat).dropPids)
    ∧ (∀ e ∈ pat.pmts, e.1 ≠ id → e.2 ∈ (processPAT id s pat).refPids) := by
  have hfd : (patLoop id pat.pmts
      { s with pzerNitPid := pat.nit_pid,
               demuxPids := insert pat.nit_pid s.demuxPids }).2 = true :=
    (patLoop_found id pat.pmts _).mpr hfound
  refine ⟨?_, ?_, ?_⟩
  · simp [processPAT, hfd]
  · intro e he hp
    have := patLoop_mem_drop id pat.pmts
      { s with pzerNitPid := pat.nit_pid,
               demuxPids := insert pat.nit_pid s.demuxPids } e he hp
    simpa [processPAT, hfd] using this
  · intro e he hp
    have := patLoop_mem_ref id pat.pmts
      { s with pzerNitPid := pat.nit_pid,
               demuxPids := insert pat.nit_pid s.demuxPids } e he hp
    simpa [processPAT, hfd] using this

/-- Witness for C1 on `patW` (target 0x20): its PMT PID 0x100 is dropped, the
other service's PMT PID 0x200 is referenced, and the republished PAT lost the
0x20 entry. -/
theorem processPAT_removes_target_witness :
    (0x100 : Nat) ∈ (processPAT 0x20 (startState cfgNum) patW).dropPids
    ∧ (0x200 : Nat) ∈ (processPAT 0x20 (startState cfgNum) patW).refPids
    ∧ (processPAT 0x20 (startState cfgNum) patW).patQueue
        = [{ patW with pmts := patW.pmts.filter (fun e => e.1 ≠ 0x20) }] :=
  have h := processPAT_removes_target 0x20 (startState cfgNum) patW
    ⟨(0x20, 0x100), by decide, rfl⟩
  ⟨h.2.1 (0x20, 0x100) (by decide) rfl, h.2.2 (0x21, 0x200) (by decide) (by decide),
   h.1⟩

/-! Claim C7 and its witness. -/

/-- C7: for every decoded PAT in which the target service id is absent,
readiness becomes true immediately — with nothing added to `drop_pids` —
exactly when absence is tolerated or NIT editing is not suppressed or BAT
editing is not suppressed; otherwise the abort flag is set (with `ready` and
`drop_pids` untouched) and the next packet check terminates the stream. -/
theorem processPAT_absent (id : Nat) (s : PluginState) (pat : PATt)
    (habs : ∀ e ∈ pat.pmts, e.1 ≠ id) :
    ((s.ignoreAbsent || !s.ignoreNit || !s.ignoreBat) = true →
        (processPAT id s pat).ready = true
        ∧ (processPAT id s pat).abort = s.abort
        ∧ (processPAT id s pat).dropPids = s.dropPids)
    ∧ ((s.ignoreAbsent || !s.ignoreNit || !s.ignoreBat) = false →
        (processPAT id s pat).abort = true
        ∧ (processPAT id s pat).ready = s.ready
        ∧ (processPAT id s pat).dropPids = s.dropPids
        ∧ (s.transparent = false →
            ∀ pid : Nat,
              route (processPAT id s pat).transparent (processPAT id s pat) pid
                = .terminated)) := by
  set s1 : PluginState :=
    { s with pzerNitPid := pat.nit_pid,
             demuxPids := insert pat.nit_pid s.demuxPids } with hs1
  have hfd : (patLoop id pat.pmts s1).2 = false := by
    rw [Bool.eq_false_iff]
    intro hT
    rcases (patLoop_found id pat.pmts s1).mp hT with ⟨e, he, hp⟩
    exact habs e he hp
  have hpres := patLoop_preserves id pat.pmts s1
  have hdrop : (patLoop id pat.pmts s1).1.dropPids = s.dropPids :=
    patLoop_drop_eq_of_absent id pat.pmts s1 habs
  have hia : (patLoop id pat.pmts s1).1.ignoreAbsent = s.ignoreAbsent :=
    hpres.2.2.2.2.2.1
  have hib : (patLoop id pat.pmts s1).1.ignoreBat = s.ignoreBat :=
    hpres.2.2.2.2.2.2.1
  have hin : (patLoop id pat.pmts s1).1.ignoreNit = s.ignoreNit :=
    hpres.2.2.2.2.2.2.2.1
  have hab : (patLoop id pat.pmts s1).1.abort = s.abort := hpres.1
  have hrd : (patLoop id pat.pmts s1).1.ready = s.ready := hpres.2.1
  have htr : (patLoop id pat.pmts s1).1.transparent = s.transparent :=
    hpres.2.2.1
  constructor
  · intro hcond
    simp only [processPAT, ← hs1, hfd, Bool.false_eq_true, if_false,
      hia, hib, hin, hcond, if_true]
    exact ⟨trivial, hab, hdrop⟩
  · intro hcond
    simp only [processPAT, ← hs1, hfd, Bool.false_eq_true, if_false,
      hia, hib, hin, hcond, if_true]
    refine ⟨trivial, hrd, hdrop, ?_⟩
    intro htrans pid
    simp [route, htr, htrans]

/-- Witness for C7: with absence fatal and NIT/BAT editing suppressed, a PAT
without service 0x20 sets abort and the router terminates. -/
theorem processPAT_absent_witness :
    (processPAT 0x20 (startState cfgStrict) patAbsent).abort = true
    ∧ route (processPAT 0x20 (startState cfgStrict) patAbsent).transparent
        (processPAT 0x20 (startState cfgStrict) patAbsent) 99 = .terminated :=
  have h := (processPAT_absent 0x20 (startState cfgStrict) patAbsent
    (by decide)).2 (by decide)
  ⟨h.1, h.2.2.2 rfl 99⟩

/-! Helper lemmas: PID discovery in `processPMT`. -/

theorem ecmStep_mono (acc : Finset Nat) (d : Descriptor) : acc ⊆ ecmStep acc d := by
  unfold ecmStep
  by_cases h : d.tag = DID_CA
  · simp only [if_pos h]
    cases hc : caPid d.payload with
    | none => exact subset_rfl
    | some p => exact Finset.subset_insert _ _
  · simp [h]

theorem addECMPID_mono (dlist : List Descriptor) (ps : Finset Nat) :
    ps ⊆ addECMPID dlist ps := by
  induction dlist generalizing ps with
  | nil => simp [addECMPID]
  | cons d rest ih =>
      simp only [addECMPID, List.foldl_cons]
      exact subset_trans (ecmStep_mono ps d) (ih (ecmStep ps d))

theorem addECMPID_mem (dlist : List Descriptor) (ps : Finset Nat)
    (d : Descriptor) (p : Nat) (hd : d ∈ dlist) (htag : d.tag = DID_CA)
    (hp : caPid d.payload = some p) : p ∈ addECMPID dlist ps := by
  induction dlist generalizing ps with
  | nil => cases hd
  | cons d0 rest ih =>
      rcases List.mem_cons.mp hd with rfl | hmem
      · simp only [addECMPID, List.foldl_cons]
        apply addECMPID_mono rest (ecmStep ps d)
        unfold ecmStep
        simp [htag, hp]
      · simp only [addECMPID, List.foldl_cons]
        exact ih (ecmStep ps d0) hmem

theorem streamStep_mono (acc : Finset Nat) (st : Nat × List Descriptor) :
    acc ⊆ streamStep acc st :=
  subset_trans (Finset.subset_insert _ _) (addECMPID_mono st.2 (insert st.1 acc))

theorem streamsFold_mono (l : List (Nat × List Descriptor)) (acc : Finset Nat) :
    acc ⊆ l.foldl streamStep acc := by
  induction l generalizing acc with
  | nil => simp
  | cons st rest ih =>
      simp only [List.foldl_cons]
      exact subset_trans (streamStep_mono acc st) (ih (streamStep acc st))

theorem streamsFold_mem_pid (l : List (Nat × List Descriptor)) (acc : Finset Nat)
    (st : Nat × List Descriptor) (hst : st ∈ l) :
    st.1 ∈ l.foldl streamStep acc := by
  induction l generalizing acc with
  | nil => cases hst
  | cons st0 rest ih =>
      rcases List.mem_cons.mp hst with rfl | hmem
      · simp only [List.foldl_cons]
        apply streamsFold_mono rest (streamStep acc st)
        exact addECMPID_mono st.2 (insert st.1 acc) (Finset.mem_insert_self _ _)
      · simp only [List.foldl_cons]
        exact ih (streamStep acc st0) hmem

theorem streamsFold_mem_ecm (l : List (Nat × List Descriptor)) (acc : Finset Nat)
    (st : Nat × List Descriptor) (hst : st ∈ l) (d : Descriptor) (p : Nat)
    (hd : d ∈ st.2) (htag : d.tag = DID_CA) (hp : caPid d.payload = some p) :
    p ∈ l.foldl streamStep acc := by
  induction l generalizing acc with
  | nil => cases hst
  | cons st0 rest ih =>
      rcases List.mem_cons.mp hst with rfl | hmem
      · simp only [List.foldl_cons]
        apply streamsFold_mono rest (streamStep acc st)
        exact addECMPID_mem st.2 (insert st.1 acc) d p hd htag hp
      · simp only [List.foldl_cons]
        exact ih (streamStep acc st0) hmem

theorem pmtMark_mono (pmt : PMTt) (ps : Finset Nat) : ps ⊆ pmtMark pmt ps := by
  show ps ⊆ pmt.streams.foldl streamStep
    (insert pmt.pcr_pid (addECMPID pmt.descs ps))
  refine subset_trans (addECMPID_mono pmt.descs ps) ?_
  refine subset_trans (Finset.subset_insert pmt.pcr_pid (addECMPID pmt.descs ps)) ?_
  exact streamsFold_mono pmt.streams _

theorem pmtMark_mem_pcr (pmt : PMTt) (ps : Finset Nat) :
    pmt.pcr_pid ∈ pmtMark pmt ps := by
  unfold pmtMark
  exact streamsFold_mono pmt.streams _ (Finset.mem_insert_self _ _)

theorem pmtMark_mem_stream (pmt : PMTt) (ps : Finset Nat)
    (st : Nat × List Descriptor) (hst : st ∈ pmt.streams) :
    st.1 ∈ pmtMark pmt ps :=
  streamsFold_mem_pid pmt.streams _ st hst

theorem pmtMark_mem_progECM (pmt : PMTt) (ps : Finset Nat) (d : Descriptor)
    (p : Nat) (hd : d ∈ pmt.descs) (htag : d.tag = DID_CA)
    (hp : caPid d.payload = some p) : p ∈ pmtMark pmt ps := by
  unfold pmtMark
  apply streamsFold_mono pmt.streams _
  exact Finset.mem_insert_of_mem (addECMPID_mem pmt.descs ps d p hd htag hp)

theorem pmtMark_mem_compECM (pmt : PMTt) (ps : Finset Nat)
    (st : Nat × List Descriptor) (hst : st ∈ pmt.streams) (d : Descriptor)
    (p : Nat) (hd : d ∈ st.2) (htag : d.tag = DID_CA)
    (hp : caPid d.payload = some p) : p ∈ pmtMark pmt ps :=
  streamsFold_mem_ecm pmt.streams _ st hst d p hd htag hp

/-! Claim C2 and its witness. -/

/-- C2: for every decoded PMT processed, if its service id equals the
target's id then all of its elementary-stream PIDs, its PCR PID, and the CA
(ECM) PIDs from its program-level and per-component descriptor lists are
added to `drop_pids` (and only there: `ref_pids` is unchanged) and the ready
flag becomes true; if its service id differs, exactly the same discovery
(`pmtMark`) is applied to `ref_pids` instead (with `drop_pids` unchanged) and
`ready` is not set by this processing alone. -/
theorem processPMT_classifies (s : PluginState) (pmt : PMTt) (tid : Nat)
    (hid : s.serviceId = some tid) :
    (pmt.service_id = tid →
        (processPMT s pmt).ready = true
        ∧ (processPMT s pmt).refPids = s.refPids
        ∧ (processPMT s pmt).dropPids = pmtMark pmt s.dropPids
        ∧ pmt.pcr_pid ∈ (processPMT s pmt).dropPids
        ∧ (∀ st ∈ pmt.streams, st.1 ∈ (processPMT s pmt).dropPids)
        ∧ (∀ d ∈ pmt.descs, d.tag = DID_CA → ∀ p : Nat,
             caPid d.payload = some p → p ∈ (processPMT s pmt).dropPids)
        ∧ (∀ st ∈ pmt.streams, ∀ d ∈ st.2, d.tag = DID_CA → ∀ p : Nat,
             caPid d.payload = some p → p ∈ (processPMT s pmt).dropPids))
    ∧ (pmt.service_id ≠ tid →
        (processPMT s pmt).ready = s.ready
        ∧ (processPMT s pmt).dropPids = s.dropPids
        ∧ (processPMT s pmt).refPids = pmtMark pmt s.refPids
        ∧ pmt.pcr_pid ∈ (processPMT s pmt).refPids
        ∧ (∀ st ∈ pmt.streams, st.1 ∈ (processPMT s pmt).refPids)
        ∧ (∀ d ∈ pmt.descs, d.tag = DID_CA → ∀ p : Nat,
             caPid d.payload = some p → p ∈ (processPMT s pmt).refPids)
        ∧ (∀ st ∈ pmt.streams, ∀ d ∈ st.2, d.tag = DID_CA → ∀ p : Nat,
             caPid d.payload = some p → p ∈ (processPMT s pmt).refPids)) := by
  constructor
  · intro h
    have hrem : s.serviceId = some pmt.service_id := by rw [hid, h]
    have hstate : processPMT s pmt
        = { s with dropPids := pmtMark pmt s.dropPids, ready := true } := by
      simp [processPMT, hrem]
    rw [hstate]
    exact ⟨rfl, rfl, rfl, pmtMark_mem_pcr pmt s.dropPids,
      fun st hst => pmtMark_mem_stream pmt s.dropPids st hst,
      fun d hd htag p hp => pmtMark_mem_progECM pmt s.dropPids d p hd htag hp,
      fun st hst d hd htag p hp =>
        pmtMark_mem_compECM pmt s.dropPids st hst d p hd htag hp⟩
  · intro h
    have hrem : ¬ s.serviceId = some pmt.service_id := by
      rw [hid]
      intro hc
      exact h (Option.some_injective _ hc).symm
    have hstate : processPMT s pmt
        = { s with refPids := pmtMark pmt s.refPids } := by
      simp [processPMT, hrem]
    rw [hstate]
    exact ⟨rfl, rfl, rfl, pmtMark_mem_pcr pmt s.refPids,
      fun st hst => pmtMark_mem_stream pmt s.refPids st hst,
      fun d hd htag p hp => pmtMark_mem_progECM pmt s.refPids d p hd htag hp,
      fun st hst d hd htag p hp =>
        pmtMark_mem_compECM pmt s.refPids st hst d p hd htag hp⟩

/-- Witness for C2 on `pmtW` (service 0x20 = target): readiness, the PCR PID
and a program-level ECM PID all land in `drop_pids`. -/
theorem processPMT_classifies_witness :
    (processPMT (startState cfgNum) pmtW).ready = true
    ∧ (0x101 : Nat) ∈ (processPMT (startState cfgNum) pmtW).dropPids
    ∧ (0x1002 : Nat) ∈ (processPMT (startState cfgNum) pmtW).dropPids
    ∧ (0x102 : Nat) ∈ (processPMT (startState cfgNum) pmtW).dropPids :=
  have h := (processPMT_classifies (startState cfgNum) pmtW 0x20 rfl).1 rfl
  ⟨h.1, h.2.2.2.1,
   h.2.2.2.2.2.1 ⟨DID_CA, 0, [0, 1, 0x10, 0x02]⟩ (by decide) rfl 0x1002 (by decide),
   h.2.2.2.2.1 (0x102, [⟨DID_CA, 0, [0, 1, 0x11, 0x03]⟩]) (by decide)⟩

/-! Claim C8 and its witness. -/

/-- C8: for every SDT-Actual processed, when the target is designated by name
(id unknown) and the name is not found, the engine sets `transparent` (when
absence is tolerated; all packets then pass unmodified) or `abort` (fatal)
and in both cases nothing is republished; when the target id is already known
and by-id lookup fails, neither `abort` nor `transparent` changes and the SDT
is still republished. -/
theorem processSDT_absent (s : PluginState) (sdt : SDTt) :
    (s.serviceId = none → findName s.serviceName sdt = none →
        (s.ignoreAbsent = true →
            processSDT s sdt = { s with transparent := true }
            ∧ ∀ pid : Nat,
                route (processSDT s sdt).transparent (processSDT s sdt) pid
                  = .passTransparent)
        ∧ (s.ignoreAbsent = false → processSDT s sdt = { s with abort := true }))
    ∧ (∀ id : Nat, s.serviceId = some id → (∀ e ∈ sdt.services, e.1 ≠ id) →
        (processSDT s sdt).abort = s.abort
        ∧ (processSDT s sdt).transparent = s.transparent
        ∧ SBItem.sdtAct sdt.ts_id sdt ∈ (processSDT s sdt).sdtBatQueue) := by
  constructor
  · intro hn hf
    constructor
    · intro hia
      have hstate : processSDT s sdt = { s with transparent := true } := by
        simp [processSDT, hn, hf, hia]
      refine ⟨hstate, ?_⟩
      intro pid
      rw [hstate]
      simp [route]
    · intro hia
      simp [processSDT, hn, hf, hia]
  · intro id hid habs
    have hfilter : sdt.services.filter (fun e => e.1 ≠ id) = sdt.services := by
      rw [List.filter_eq_self]
      intro e he
      simpa using habs e he
    have hsdt : { sdt with services := sdt.services.filter (fun e => e.1 ≠ id) }
        = sdt := by
      rw [hfilter]
    have hstate : processSDT s sdt = enqueueSdt s sdt := by
      simp only [processSDT, hid]
      rw [hsdt]
    rw [hstate]
    refine ⟨rfl, rfl, ?_⟩
    unfold enqueueSdt
    simp

/-- Witness for C8: with a known id 0x20 absent from `sdtAbsent`, processing
is not fatal and the SDT is republished. -/
theorem processSDT_absent_witness :
    (processSDT (startState cfgNum) sdtAbsent).abort = (startState cfgNum).abort
    ∧ SBItem.sdtAct sdtAbsent.ts_id sdtAbsent
        ∈ (processSDT (startState cfgNum) sdtAbsent).sdtBatQueue :=
  have h := (processSDT_absent (startState cfgNum) sdtAbsent).2 0x20 rfl (by decide)
  ⟨h.1, h.2.2⟩

/-! Helper lemmas: field preservation of handlers, and the unknown-id
invariant. -/

theorem processPAT_serviceId (id : Nat) (s : PluginState) (pat : PATt) :
    (processPAT id s pat).serviceId = s.serviceId := by
  have hp := (patLoop_preserves id pat.pmts
    { s with pzerNitPid := pat.nit_pid,
             demuxPids := insert pat.nit_pid s.demuxPids }).2.2.2.1
  simp only [processPAT]
  split_ifs <;> exact hp

theorem processPMT_serviceId (s : PluginState) (pmt : PMTt) :
    (processPMT s pmt).serviceId = s.serviceId := by
  by_cases hrem : s.serviceId = some pmt.service_id <;> simp [processPMT, hrem]

theorem processPMT_demuxPids (s : PluginState) (pmt : PMTt) :
    (processPMT s pmt).demuxPids = s.demuxPids := by
  by_cases hrem : s.serviceId = some pmt.service_id <;> simp [processPMT, hrem]

theorem NitSafe_start (c : Config) : NitSafe (startState c) := by
  intro hn
  cases htg : c.target with
  | byId i => simp [startState, htg] at hn
  | byName n => simp [startState, htg]

theorem NitSafe_applyEvent (s : PluginState) (e : Event) (hs : NitSafe s) :
    NitSafe (applyEvent s e) := by
  intro hn
  unfold applyEvent at hn ⊢
  by_cases hsrc : e.src ∈ s.demuxPids
  · simp only [if_pos hsrc] at hn ⊢
    cases e with
    | pat src v t =>
        by_cases h1 : src = PID_PAT
        · by_cases h2 : v = true
          · cases hsid : s.serviceId with
            | some i =>
                exfalso
                have hkeep : (handleTable s (.pat src v t)).serviceId = some i := by
                  simp [handleTable, h1, h2, hsid, processPAT_serviceId]
                rw [hn] at hkeep
                cases hkeep
            | none =>
                have heq : handleTable s (.pat src v t) = s := by
                  simp [handleTable, h1, h2, hsid]
                rw [heq]
                exact hs hsid
          · have heq : handleTable s (.pat src v t) = s := by
              simp [handleTable, h2]
            rw [heq] at hn ⊢
            exact hs hn
        · have heq : handleTable s (.pat src v t) = s := by
            simp [handleTable, h1]
          rw [heq] at hn ⊢
          exact hs hn
    | pmt src v t =>
        by_cases h2 : v = true
        · have hkeep := processPMT_serviceId s t
          have hdem := processPMT_demuxPids s t
          simp only [handleTable, h2, if_true] at hn ⊢
          rw [hdem]
          apply hs
          rw [← hkeep]
          exact hn
        · simp only [handleTable, h2] at hn ⊢
          simp only [if_false, Bool.false_eq_true] at hn ⊢
          exact hs hn
    | sdtAct src v t =>
        by_cases h1 : src = PID_SDT
        · by_cases h2 : v = true
          · cases hsid : s.serviceId with
            | some i =>
                exfalso
                have hkeep : (handleTable s (.sdtAct src v t)).serviceId
                    = some i := by
                  simp [handleTable, h1, h2, processSDT, hsid, enqueueSdt]
                rw [hn] at hkeep
                cases hkeep
            | none =>
                cases hf : findName s.serviceName t with
                | none =>
                    have hdem : (handleTable s (.sdtAct src v t)).demuxPids
                        = s.demuxPids := by
                      by_cases hia : s.ignoreAbsent
                        <;> simp [handleTable, h1, h2, processSDT, hsid, hf, hia]
                    rw [hdem]
                    exact hs hsid
                | some i =>
                    exfalso
                    have hkeep : (handleTable s (.sdtAct src v t)).serviceId
                        = some i := by
                      simp [handleTable, h1, h2, processSDT, hsid, hf, enqueueSdt]
                    rw [hn] at hkeep
                    cases hkeep
          · have heq : handleTable s (.sdtAct src v t) = s := by
              simp [handleTable, h2]
            rw [heq] at hn ⊢
            exact hs hn
        · have heq : handleTable s (.sdtAct src v t) = s := by
            simp [handleTable, h1]
          rw [heq] at hn ⊢
          exact hs hn
    | sdtOth src ext =>
        have hdem : (handleTable s (.sdtOth src ext)).demuxPids = s.demuxPids := by
          by_cases h1 : src = PID_SDT <;> simp [handleTable, h1]
        have hid2 : (handleTable s (.sdtOth src ext)).serviceId = s.serviceId := by
          by_cases h1 : src = PID_SDT <;> simp [handleTable, h1]
        rw [hdem]
        apply hs
        rw [← hid2]
        exact hn
    | bat src v t =>
        have hdem : (handleTable s (.bat src v t)).demuxPids = s.demuxPids := by
          simp only [handleTable]
          split_ifs <;> rfl
        have hid2 : (handleTable s (.bat src v t)).serviceId = s.serviceId := by
          simp only [handleTable]
          split_ifs <;> rfl
        rw [hdem]
        apply hs
        rw [← hid2]
        exact hn
    | nitAct src v t =>
        have hdem : (handleTable s (.nitAct src v t)).demuxPids
            = s.demuxPids := by
          simp only [handleTable]
          cases hsid : s.serviceId <;> split_ifs <;> rfl
        have hid2 : (handleTable s (.nitAct src v t)).serviceId
            = s.serviceId := by
          simp only [handleTable]
          cases hsid : s.serviceId <;> split_ifs <;> first | rfl | exact hsid
        rw [hdem]
        apply hs
        rw [← hid2]
        exact hn
    | nitOth src ext =>
        have hdem : (handleTable s (.nitOth src ext)).demuxPids = s.demuxPids := by
          by_cases h1 : src = PID_NIT <;> simp [handleTable, h1]
        have hid2 : (handleTable s (.nitOth src ext)).serviceId = s.serviceId := by
          by_cases h1 : src = PID_NIT <;> simp [handleTable, h1]
        rw [hdem]
        apply hs
        rw [← hid2]
        exact hn
  · simp only [if_neg hsrc] at hn ⊢
    exact hs hn

theorem NitSafe_run (c : Config) (evs : List Event) :
    NitSafe (runEvents (startState c) evs) := by
  suffices h : ∀ s : PluginState, NitSafe s → NitSafe (runEvents s evs) from
    h (startState c) (NitSafe_start c)
  induction evs with
  | nil => exact fun s hs => hs
  | cons e rest ih =>
      intro s hs
      exact ih (applyEvent s e) (NitSafe_applyEvent s e hs)

theorem chunks3_all_length (p : List Nat) : ∀ r ∈ chunks3 p, r.length = 3 := by
  induction p using chunks3.induct with
  | case1 b0 b1 b2 rest ih =>
      intro r hr
      rcases List.mem_cons.mp hr with rfl | hmem
      · rfl
      · exact ih r hmem
  | case2 p h1 =>
      intro r hr
      cases p with
      | nil => cases hr
      | cons a t =>
        cases t with
        | nil => cases hr
        | cons b t2 =>
          cases t2 with
          | nil => cases hr
          | cons c t3 => exact absurd rfl (h1 a b c t3)

theorem chunks3_flatten (rs : List (List Nat)) (h : ∀ r ∈ rs, r.length = 3) :
    chunks3 rs.flatten = rs := by
  induction rs with
  | nil => rfl
  | cons r rest ih =>
      have hr := h r (by simp)
      rcases List.length_eq_three.mp hr with ⟨a, b, c, rfl⟩
      have hrest : ∀ x ∈ rest, x.length = 3 := fun x hx => h x (by simp [hx])
      simp only [List.flatten_cons, List.cons_append, List.append_eq,
        List.nil_append, chunks3]
      rw [ih hrest]

theorem svlCompact_no_target (id : Nat) (p : List Nat) :
    ∀ r ∈ chunks3 (svlCompact id p), recId r ≠ id := by
  intro r hr
  rw [svlCompact_eq_filter] at hr
  rw [chunks3_flatten _ (fun x hx =>
    chunks3_all_length p x (List.mem_of_mem_filter hx))] at hr
  have := List.of_mem_filter hr
  simpa using this

theorem processNITBATDescriptorList_no_target (id : Nat) (dl : List Descriptor) :
    ∀ d ∈ processNITBATDescriptorList id dl, d.tag = DID_SERVICE_LIST →
      ∀ r ∈ chunks3 d.payload, recId r ≠ id := by
  intro d hd htag r hr
  rw [processNITBATDescriptorList_eq_map_specEdit] at hd
  rcases List.mem_map.mp hd with ⟨d0, _, rfl⟩
  rw [specEdit_tag] at htag
  rw [specEdit_payload_svl id d0 htag, ← svlCompact_eq_filter] at hr
  exact svlCompact_no_target id d0.payload r hr

/-! Claim C9 and its witness. -/

/-- C9: a complete BAT delivered while the target's service id is unknown is
neither edited nor enqueued — the only effect is a demux reset of its source
PID, so the same section is redelivered later; no NIT can be delivered while
the id is unknown (in every reachable state the unknown-id demux registration
is only the SDT/BAT PID, and delivery requires a registered PID); and once
the id is known, a redelivered BAT is republished with every service-list
record of the target removed from its global and per-transport descriptor
lists. -/
theorem batnit_unknown_deferred (s : PluginState) (t : TLT) (v : Bool)
    (c : Config) (evs : List Event) (id : Nat) :
    (s.serviceId = none → PID_BAT ∈ s.demuxPids →
        applyEvent s (.bat PID_BAT v t)
          = { s with resets := s.resets ++ [PID_BAT] })
    ∧ NitSafe (runEvents (startState c) evs)
    ∧ (s.serviceId = none → NitSafe s → applyEvent s (.nitAct PID_NIT v t) = s)
    ∧ (s.serviceId = some id → s.ignoreBat = false → PID_BAT ∈ s.demuxPids →
        SBItem.batTbl (processNITBAT id t).ext (processNITBAT id t)
            ∈ (applyEvent s (.bat PID_BAT true t)).sdtBatQueue
        ∧ (∀ d ∈ (processNITBAT id t).descs, d.tag = DID_SERVICE_LIST →
            ∀ r ∈ chunks3 d.payload, recId r ≠ id)
        ∧ (∀ tr ∈ (processNITBAT id t).transports, ∀ d ∈ tr.2,
            d.tag = DID_SERVICE_LIST → ∀ r ∈ chunks3 d.payload, recId r ≠ id)) := by
  refine ⟨?_, NitSafe_run c evs, ?_, ?_⟩
  · intro hn hm
    simp [applyEvent, Event.src, hm, handleTable, hn]
  · intro hn hsafe
    have hnot : PID_NIT ∉ s.demuxPids := by
      intro hmem
      have hsub := hsafe hn hmem
      rw [Finset.mem_singleton] at hsub
      exact absurd hsub (by decide)
    simp [applyEvent, Event.src, hnot]
  · intro hsid hib hm
    have hq : (applyEvent s (.bat PID_BAT true t)).sdtBatQueue
        = s.sdtBatQueue.filter (fun it => !(sbIsBat (processNITBAT id t).ext it))
          ++ [.batTbl (processNITBAT id t).ext (processNITBAT id t)] := by
      simp [applyEvent, Event.src, hm, handleTable, hsid, hib]
    refine ⟨?_, ?_, ?_⟩
    · rw [hq]
      simp
    · exact processNITBATDescriptorList_no_target id t.descs
    · intro tr htr d hd htag r hr
      have : (processNITBAT id t).transports
          = t.transports.map (fun tr => (tr.1, processNITBATDescriptorList id tr.2)) :=
        rfl
      rw [this] at htr
      rcases List.mem_map.mp htr with ⟨tr0, _, rfl⟩
      exact processNITBATDescriptorList_no_target id tr0.2 d hd htag r hr

/-- Witness for C9: with the name "Channel 5" still unresolved, a BAT only
logs a demux reset; after `sdtW` resolves the id to 0x30, the same BAT is
republished edited. -/
theorem batnit_unknown_deferred_witness :
    applyEvent (startState cfgName) (.bat PID_BAT true batW)
      = { startState cfgName with
          resets := (startState cfgName).resets ++ [PID_BAT] }
    ∧ SBItem.batTbl (processNITBAT 0x30 batW).ext (processNITBAT 0x30 batW)
        ∈ (applyEvent sKnown (.bat PID_BAT true batW)).sdtBatQueue :=
  ⟨(batnit_unknown_deferred (startState cfgName) batW true cfgName [] 0x30).1
      rfl (by decide),
   ((batnit_unknown_deferred sKnown batW true cfgName [] 0x30).2.2.2
      (by decide) (by decide) (by decide)).1⟩

/-! Helper lemmas: monotonicity of the PID sets. -/

theorem processPAT_pidsets_mono (id : Nat) (s : PluginState) (pat : PATt) :
    s.dropPids ⊆ (processPAT id s pat).dropPids
    ∧ s.refPids ⊆ (processPAT id s pat).refPids := by
  constructor
  · simp only [processPAT]
    split_ifs <;>
      exact patLoop_drop_mono id pat.pmts
        { s with pzerNitPid := pat.nit_pid,
                 demuxPids := insert pat.nit_pid s.demuxPids }
  · simp only [processPAT]
    split_ifs <;>
      exact patLoop_ref_mono id pat.pmts
        { s with pzerNitPid := pat.nit_pid,
                 demuxPids := insert pat.nit_pid s.demuxPids }

theorem processPMT_pidsets_mono (s : PluginState) (pmt : PMTt) :
    s.dropPids ⊆ (processPMT s pmt).dropPids
    ∧ s.refPids ⊆ (processPMT s pmt).refPids := by
  by_cases hrem : s.serviceId = some pmt.service_id
  · refine ⟨?_, ?_⟩
    · have h : (processPMT s pmt).dropPids = pmtMark pmt s.dropPids := by
        simp [processPMT, hrem]
      rw [h]
      exact pmtMark_mono pmt s.dropPids
    · have h : (processPMT s pmt).refPids = s.refPids := by
        simp [processPMT, hrem]
      rw [h]
  · refine ⟨?_, ?_⟩
    · have h : (processPMT s pmt).dropPids = s.dropPids := by
        simp [processPMT, hrem]
      rw [h]
    · have h : (processPMT s pmt).refPids = pmtMark pmt s.refPids := by
        simp [processPMT, hrem]
      rw [h]
      exact pmtMark_mono pmt s.refPids

theorem processSDT_pidsets (s : PluginState) (sdt : SDTt) :
    (processSDT s sdt).dropPids = s.dropPids
    ∧ (processSDT s sdt).refPids = s.refPids := by
  cases hsid : s.serviceId with
  | some id => simp [processSDT, hsid, enqueueSdt]
  | none =>
      cases hf : findName s.serviceName sdt with
      | none => by_cases hia : s.ignoreAbsent <;> simp [processSDT, hsid, hf, hia]
      | some i => simp [processSDT, hsid, hf, enqueueSdt]

theorem handleTable_pidsets_mono (s : PluginState) (e : Event) :
    s.dropPids ⊆ (handleTable s e).dropPids
    ∧ s.refPids ⊆ (handleTable s e).refPids := by
  cases e with
  | pat src v t =>
      by_cases h1 : src = PID_PAT
      · by_cases h2 : v = true
        · cases hsid : s.serviceId with
          | some i =>
              have heq : handleTable s (.pat src v t) = processPAT i s t := by
                simp [handleTable, h1, h2, hsid]
              rw [heq]
              exact processPAT_pidsets_mono i s t
          | none =>
              have heq : handleTable s (.pat src v t) = s := by
                simp [handleTable, h1, h2, hsid]
              rw [heq]
              exact ⟨subset_rfl, subset_rfl⟩
        · have heq : handleTable s (.pat src v t) = s := by
            simp [handleTable, h2]
          rw [heq]
          exact ⟨subset_rfl, subset_rfl⟩
      · have heq : handleTable s (.pat src v t) = s := by
          simp [handleTable, h1]
        rw [heq]
        exact ⟨subset_rfl, subset_rfl⟩
  | pmt src v t =>
      by_cases h2 : v = true
      · have heq : handleTable s (.pmt src v t) = processPMT s t := by
          simp [handleTable, h2]
        rw [heq]
        exact processPMT_pidsets_mono s t
      · have heq : handleTable s (.pmt src v t) = s := by
          simp [handleTable, h2]
        rw [heq]
        exact ⟨subset_rfl, subset_rfl⟩
  | sdtAct src v t =>
      by_cases h1 : src = PID_SDT
      · by_cases h2 : v = true
        · have heq : handleTable s (.sdtAct src v t) = processSDT s t := by
            simp [handleTable, h1, h2]
          rw [heq, (processSDT_pidsets s t).1, (processSDT_pidsets s t).2]
          exact ⟨subset_rfl, subset_rfl⟩
        · have heq : handleTable s (.sdtAct src v t) = s := by
            simp [handleTable, h2]
          rw [heq]
          exact ⟨subset_rfl, subset_rfl⟩
      · have heq : handleTable s (.sdtAct src v t) = s := by
          simp [handleTable, h1]
        rw [heq]
        exact ⟨subset_rfl, subset_rfl⟩
  | sdtOth src ext =>
      have hd : (handleTable s (.sdtOth src ext)).dropPids = s.dropPids := by
        simp only [handleTable]
        split_ifs <;> rfl
      have hr : (handleTable s (.sdtOth src ext)).refPids = s.refPids := by
        simp only [handleTable]
        split_ifs <;> rfl
      rw [hd, hr]
      exact ⟨subset_rfl, subset_rfl⟩
  | bat src v t =>
      have hd : (handleTable s (.bat src v t)).dropPids = s.dropPids := by
        simp only [handleTable]
        split_ifs <;> rfl
      have hr : (handleTable s (.bat src v t)).refPids = s.refPids := by
        simp only [handleTable]
        split_ifs <;> rfl
      rw [hd, hr]
      exact ⟨subset_rfl, subset_rfl⟩
  | nitAct src v t =>
      have hd : (handleTable s (.nitAct src v t)).dropPids = s.dropPids := by
        simp only [handleTable]
        cases hsid : s.serviceId <;> split_ifs <;> rfl
      have hr : (handleTable s (.nitAct src v t)).refPids = s.refPids := by
        simp only [handleTable]
        cases hsid : s.serviceId <;> split_ifs <;> rfl
      rw [hd, hr]
      exact ⟨subset_rfl, subset_rfl⟩
  | nitOth src ext =>
      have hd : (handleTable s (.nitOth src ext)).dropPids = s.dropPids := by
        simp only [handleTable]
        split_ifs <;> rfl
      have hr : (handleTable s (.nitOth src ext)).refPids = s.refPids := by
        simp only [handleTable]
        split_ifs <;> rfl
      rw [hd, hr]
      exact ⟨subset_rfl, subset_rfl⟩

theorem applyEvent_pidsets_mono (s : PluginState) (e : Event) :
    s.dropPids ⊆ (applyEvent s e).dropPids
    ∧ s.refPids ⊆ (applyEvent s e).refPids := by
  unfold applyEvent
  split_ifs with h
  · exact handleTable_pidsets_mono s e
  · exact ⟨subset_rfl, subset_rfl⟩

theorem runEvents_pidsets_mono (evs : List Event) :
    ∀ s : PluginState, s.dropPids ⊆ (runEvents s evs).dropPids
      ∧ s.refPids ⊆ (runEvents s evs).refPids := by
  induction evs with
  | nil => exact fun s => ⟨subset_rfl, subset_rfl⟩
  | cons e rest ih =>
      intro s
      constructor
      · exact subset_trans (applyEvent_pidsets_mono s e).1 (ih (applyEvent s e)).1
      · exact subset_trans (applyEvent_pidsets_mono s e).2 (ih (applyEvent s e)).2

/-! Claim C10 and its witness. -/

/-- C10: within one run the PID sets grow monotonically: `start()` seeds the
standard system PIDs into `ref_pids`; no table delivery (and hence no table
handler) removes a PID from `drop_pids` or `ref_pids`; and after any sequence
of table deliveries from start the seeded system PIDs are still in
`ref_pids`.  (The packet router reads but never writes the sets: `route` is a
pure function.) -/
theorem pidsets_monotone (c : Config) (s : PluginState) (e : Event)
    (evs : List Event) :
    systemPids ⊆ (startState c).refPids
    ∧ s.dropPids ⊆ (applyEvent s e).dropPids
    ∧ s.refPids ⊆ (applyEvent s e).refPids
    ∧ systemPids ⊆ (runEvents (startState c) evs).refPids := by
  refine ⟨subset_rfl, (applyEvent_pidsets_mono s e).1,
    (applyEvent_pidsets_mono s e).2, ?_⟩
  exact (runEvents_pidsets_mono evs (startState c)).2

/-- Witness for C10: the EIT PID seeded at start is still referenced after a
PAT delivery. -/
theorem pidsets_monotone_witness :
    (PID_EIT : Nat)
      ∈ (runEvents (startState cfgNum) [Event.pat PID_PAT true patW]).refPids :=
  (pidsets_monotone cfgNum (startState cfgNum) (Event.pat PID_PAT true patW)
    [Event.pat PID_PAT true patW]).2.2.2 (by decide)

end SVRemove
